import Mathlib

/-!
Verification of the Audalithic radio player against its design specification.

The development shallowly embeds the playback core of the repository:

* `src/utils/audioManager.ts` — catalog client (`getAvailableLanguages`,
  `getSongsByLanguages`, manifest validation);
* `src/app/api/languages/route.ts` and `src/app/api/songs/route.ts` — the two
  HTTP proxy endpoints;
* `src/contexts/RadioContext.tsx` — the playback orchestrator
  (`playNextSong`, `preloadNextSongUpdated`, `previousSong`, `resetPlaylist`,
  the localStorage persistence bridge and the cold-start restoration path).

React `useState` semantics are modelled faithfully at the granularity of one
event-handler invocation: plain reads inside a handler see the snapshot of
state taken when the handler ran, `setX(value)` replaces the queued value, and
`setX(prev => ...)` applies to the queued value.  Each exported operation is a
pure function from the settled state before the invocation to the settled
state after it.  Randomness (`Math.floor(Math.random() * n)`) is modelled by
an explicit choice argument taken modulo `n`.
-/

namespace Audalithic

/-- Structure `Song` from `src/utils/audioManager.ts` (`id`, `title`, `language`, `path`). -/
structure Song where
  id : String
  title : String
  language : String
  path : String
deriving DecidableEq, Repr, Inhabited

/-- Structure `LanguageOption` from `src/utils/audioManager.ts`. -/
structure LanguageOption where
  id : String
  name : String
deriving DecidableEq, Repr

/-! ## Session persistence bridge (localStorage keys of `RadioContext.tsx`)

Positions and durations are JS numbers used only through comparisons and
`Math.min`; they are modelled as rationals.  Timestamps are `Date.now()`
millisecond values; JS subtraction of them is modelled on `Int`. -/

/-- The localStorage keys touched by the restoration / position-saving code of
`RadioContext.tsx`: `currentSong` (parsed), `wasPlaying`, `audioPosition`,
`audioPositionTimestamp`.  `none` models an absent key. -/
structure Storage where
  currentSongKey : Option Song
  wasPlayingKey : Option Bool
  audioPosition : Option ℚ
  audioPositionTimestamp : Option Int
deriving DecidableEq, Repr

/-- Removing the four saved-playback keys, as done by every "clear saved
state" site in `RadioContext.tsx` (lines 194–197, 769–772, …). -/
def clearSavedKeys (st : Storage) : Storage :=
  { st with currentSongKey := none, wasPlayingKey := none,
            audioPosition := none, audioPositionTimestamp := none }

/-- 24 hours in milliseconds (`const dayInMs = 24 * 60 * 60 * 1000`). -/
def dayInMs : Int := 24 * 60 * 60 * 1000

/-- Function `savePlaybackPosition` (RadioContext.tsx lines 43–51): if a sound exists
and `sound.seek()` returns a number greater than 0, write `audioPosition` and
`audioPositionTimestamp`; otherwise write nothing.  `seekResult = none` models
"no sound, or `seek()` did not return a number". -/
def savePlaybackPosition (seekResult : Option ℚ) (now : Int) (st : Storage) :
    Storage :=
  match seekResult with
  | some position =>
      if 0 < position then
        { st with audioPosition := some position,
                  audioPositionTimestamp := some now }
      else st
  | none => st

/-- Outcome of the startup scan of saved state: either prepare restoration of
a saved song (`setCurrentSong song; setShouldRestoreAudio(true)`) or start
idle with no current song. -/
inductive StartupOutcome where
  | restore (song : Song)
  | idle
deriving DecidableEq, Repr

/-- The cold-start saved-state check of `RadioProvider`
(RadioContext.tsx lines 171–207): if a `currentSong` entry exists, restoration
proceeds when the position-save timestamp is absent or less than 24h old
(`!savedTimestamp || (now - parseInt(savedTimestamp)) < dayInMs`); otherwise
the saved keys are cleared and no restoration is prepared. -/
def loadSavedSongState (st : Storage) (now : Int) : StartupOutcome × Storage :=
  match st.currentSongKey with
  | none => (.idle, st)
  | some song =>
      match st.audioPositionTimestamp with
      | none => (.restore song, st)
      | some ts =>
          if now - ts < dayInMs then (.restore song, st)
          else (.idle, clearSavedKeys st)

/-- The restored seek position (RadioContext.tsx lines 826–841): seek only if
a saved position exists and is `> 0`; the position used is
`Math.min(position, currentDuration)` when the reported duration is positive,
and the raw saved position otherwise. -/
def restoredSeekPosition (savedPosition : Option ℚ) (duration : ℚ) :
    Option ℚ :=
  match savedPosition with
  | some position =>
      if 0 < position then
        some (if 0 < duration then min position duration else position)
      else none
  | none => none

end Audalithic

namespace Audalithic

/-! ## Playback orchestrator state (`RadioContext.tsx`) -/

/-- The React state of `RadioProvider` that the playlist/history claims are
about.  A `Howl` handle is represented by the track it is bound to (`sound`
for the current handle, `nextSound` for the preloaded handle — the latter is
looked up again by its `path`/src at use time, exactly as the source does). -/
structure RadioState where
  songs : List Song
  availableSongs : List Song
  playedSongs : List String
  previousSongs : List Song
  currentSong : Option Song
  sound : Option Song
  nextSound : Option Song
  isPlaying : Bool
deriving DecidableEq, Repr

/-- Predicate for `song.id !== currentSong?.id` (negated): true iff `t` is the current song
by id.  With no current song the JS comparison with `undefined` is false. -/
def isCurrentB (s : RadioState) (t : Song) : Bool :=
  match s.currentSong with
  | some c => t.id == c.id
  | none => false

/-- Expression `currentSong ? [currentSong.id] : []`. -/
def currentIdList (s : RadioState) : List String :=
  match s.currentSong with
  | some c => [c.id]
  | none => []

/-- The `currentSong` as a singleton list (used when pushing onto the history). -/
def currentSongList (s : RadioState) : List Song :=
  match s.currentSong with
  | some c => [c]
  | none => []

/-- A fresh provider state holding a freshly fetched catalog: `songs` and
`availableSongs` are the fetched list (nothing played yet), no current song,
no handles, empty history. -/
def initState (catalog : List Song) : RadioState :=
  { songs := catalog, availableSongs := catalog, playedSongs := [],
    previousSongs := [], currentSong := none, sound := none,
    nextSound := none, isPlaying := false }

/-- The exhaustion check of `playNextSong` (RadioContext.tsx line 492):
`playedSongs.length >= songs.length - 1`, on the invocation snapshot. -/
def exhaustionFires (s : RadioState) : Prop :=
  s.songs.length - 1 ≤ s.playedSongs.length

instance (s : RadioState) : Decidable (exhaustionFires s) :=
  inferInstanceAs (Decidable (_ ≤ _))

/-- The played list queued by `playNextSong` before its final appends: the
exhaustion-reset (RadioContext.tsx lines 491–498) replaces it with just the
current song's id. -/
def queuedPlayed (s : RadioState) : List String :=
  if exhaustionFires s then currentIdList s else s.playedSongs

/-- The available list queued by `playNextSong` before its final filter: the
exhaustion-reset replaces it with the catalog minus the current song. -/
def queuedAvail (s : RadioState) : List Song :=
  if exhaustionFires s then s.songs.filter (fun t => !isCurrentB s t)
  else s.availableSongs

/-- The preloaded-handle reverse lookup in `playNextSong` (RadioContext.tsx
lines 503–518): the preloaded `Howl`'s src path is matched back against the
snapshot `availableSongs`. -/
def preloadLookup (s : RadioState) : Option Song :=
  match s.nextSound with
  | some ns => s.availableSongs.find? (fun t => t.path == ns.path)
  | none => none

/-- The tail of a successful `playNextSong` invocation (RadioContext.tsx
lines 615–633): push the old current song onto the history, append the picked
song to the (queued) played list, drop it from the (queued) available list,
and make it the current, playing handle.  `nextS` is the resulting preload
slot (`none` when the preloaded handle was consumed). -/
def beginSong (s : RadioState) (qPlayed : List String) (qAvail : List Song)
    (t : Song) (nextS : Option Song) : RadioState :=
  { s with previousSongs := s.previousSongs ++ currentSongList s,
           playedSongs := qPlayed ++ [t.id],
           availableSongs := qAvail.filter (fun x => !(x.id == t.id)),
           currentSong := some t, sound := some t, isPlaying := true,
           nextSound := nextS }

/-- Function `playNextSong` (RadioContext.tsx lines 475–647) as one invocation from
settled state `s`; `choice` resolves `Math.floor(Math.random() * n)`.
Returns the new settled state and the song that started playing, if any.

Reads of `songs`, `playedSongs`, `availableSongs`, `currentSong`, `nextSound`
inside the body are the invocation snapshot; the exhaustion-reset's plain
`setPlayedSongs` / `setAvailableSongs` writes are queued and the final
functional updates (`prev => [...prev, id]`, `prev => prev.filter(...)`)
apply on top of them. -/
def playNextSong (choice : Nat) (s : RadioState) : RadioState × Option Song :=
  if s.songs.isEmpty then (s, none)
  else
    -- stop and drop the current handle, if any
    let stopped : RadioState :=
      if s.sound.isSome then { s with sound := none, isPlaying := false } else s
    match preloadLookup s with
    | some t => (beginSong s (queuedPlayed s) (queuedAvail s) t none, some t)
    | none =>
        let availSongs : List Song :=
          if 0 < s.availableSongs.length then s.availableSongs
          else s.songs.filter (fun t => !isCurrentB s t)
        if availSongs.isEmpty then
          -- "No more songs available": the queued reset writes still land
          ({ stopped with playedSongs := queuedPlayed s,
                          availableSongs := queuedAvail s }, none)
        else
          let t := availSongs.getD (choice % availSongs.length) default
          (beginSong s (queuedPlayed s) (queuedAvail s) t s.nextSound, some t)

/-- Function `preloadNextSongUpdated` (RadioContext.tsx lines 650–738) as one
invocation; only ever queues a handle in `nextSound`, except in its own
exhaustion-reset branch, where it also rewrites `playedSongs` and
`availableSongs`. -/
def preloadNextSongUpdated (choice : Nat) (s : RadioState) : RadioState :=
  if s.nextSound.isSome then s
  else if s.songs.isEmpty then s
  else
    let unplayedSongs : List Song :=
      s.songs.filter (fun t => !s.playedSongs.contains t.id && !isCurrentB s t)
    if 0 < unplayedSongs.length then
      let pick := unplayedSongs.getD (choice % unplayedSongs.length) default
      { s with nextSound := some pick }
    else if 0 < s.availableSongs.length then
      let pick :=
        s.availableSongs.getD (choice % s.availableSongs.length) default
      { s with nextSound := some pick }
    else
      let newAvailableSongs := s.songs.filter (fun t => !isCurrentB s t)
      if newAvailableSongs.isEmpty then
        { s with playedSongs := currentIdList s,
                 availableSongs := newAvailableSongs }
      else
        let pick :=
          newAvailableSongs.getD (choice % newAvailableSongs.length) default
        { s with playedSongs := currentIdList s,
                 availableSongs := newAvailableSongs,
                 nextSound := some pick }

/-- Function `previousSong` (RadioContext.tsx lines 1045–1153).  Returns the new state
and whether the "No previous songs available" notice was shown (in which case
nothing else happens). -/
def previousSongStep (s : RadioState) : RadioState × Bool :=
  if s.previousSongs.isEmpty then (s, true)
  else
    let lastSong := s.previousSongs.getLastD default
    let hist := s.previousSongs.dropLast
    let avail :=
      match s.currentSong with
      | some c => c :: s.availableSongs
      | none => s.availableSongs
    let played :=
      match s.currentSong with
      | some c => s.playedSongs.filter (fun i => !(i == c.id))
      | none => s.playedSongs
    ({ s with previousSongs := hist, availableSongs := avail,
              playedSongs := played, sound := some lastSong,
              currentSong := some lastSong, isPlaying := true }, false)

/-- Function `resetPlaylist` (RadioContext.tsx lines 1021–1042). -/
def resetPlaylist (s : RadioState) : RadioState :=
  if s.songs.isEmpty then s
  else
    { s with playedSongs := currentIdList s,
             availableSongs := s.songs.filter (fun t => !isCurrentB s t) }

/-- The state effect of the song-list fetch on a language change
(RadioContext.tsx lines 310–380): an empty selection or an empty result
clears both lists; otherwise `songs` is the fetched list and
`availableSongs` filters out already-played ids. -/
def rebuildSongs (newSongs : List Song) (s : RadioState) : RadioState :=
  if newSongs.isEmpty then { s with songs := [], availableSongs := [] }
  else
    { s with songs := newSongs,
             availableSongs :=
               newSongs.filter (fun t => !s.playedSongs.contains t.id) }

/-- The cold-start restoration effect (`restoreAudio`, RadioContext.tsx lines
757–916), for a state whose `currentSong` was set from the saved snapshot.
`duration` is the duration the created handle reports on load.  Returns the
new state, the storage after the attempt, and the position seeked (if any).
If the saved song's id is absent from the fetched song list, restoration is
abandoned: the saved keys are cleared and no handle is created. -/
def restoreAudio (s : RadioState) (st : Storage) (duration : ℚ) :
    RadioState × Storage × Option ℚ :=
  match s.currentSong with
  | none => (s, st, none)
  | some c =>
      if s.songs.any (fun t => t.id == c.id) then
        let wasPlaying := st.wasPlayingKey == some true
        let seeked := restoredSeekPosition st.audioPosition duration
        ({ s with sound := some c, isPlaying := wasPlaying }, st, seeked)
      else
        ({ s with currentSong := none, sound := none, isPlaying := false },
         clearSavedKeys st, none)

/-- The operations that mutate the playback session, as invocations of the
handlers of `RadioContext.tsx`: an automatic/skip advance, a preload attempt,
the previous-song action, the explicit playlist reset, and the song-list
rebuild after a language change. -/
inductive Ev where
  | advance (choice : Nat)
  | preload (choice : Nat)
  | previous
  | reset
  | rebuild (newSongs : List Song)
deriving Repr

/-- One handler invocation. -/
def applyEv (s : RadioState) : Ev → RadioState
  | .advance c => (playNextSong c s).1
  | .preload c => preloadNextSongUpdated c s
  | .previous => (previousSongStep s).1
  | .reset => resetPlaylist s
  | .rebuild l => rebuildSongs l s

/-- Running a sequence of handler invocations. -/
def runEvents (tr : List Ev) (s : RadioState) : RadioState :=
  tr.foldl applyEv s

/-- The session-set disjointness invariant of the spec's data model:
no id is simultaneously in `availableSongs` and `playedSongs`. -/
def sessionDisjoint (s : RadioState) : Prop :=
  ∀ t ∈ s.availableSongs, t.id ∉ s.playedSongs

/-- Iterating the previous-song action. -/
def prevIter : Nat → RadioState → RadioState
  | 0, s => s
  | k + 1, s => prevIter k (previousSongStep s).1

/-- A concrete track (used in counterexamples and witnesses). -/
def songA : Song :=
  { id := "English-a", title := "a", language := "English",
    path := "https://m.example/audio/English/a.mp3" }

/-- A second concrete track. -/
def songB : Song :=
  { id := "English-b", title := "b", language := "English",
    path := "https://m.example/audio/English/b.mp3" }

/-- A two-track catalog. -/
def catalogAB : List Song := [songA, songB]

/-- The automatic steady-state events: `onEnded`-driven (or skip) advances
and preload attempts. -/
inductive AutoEv where
  | adv (choice : Nat)
  | pre (choice : Nat)
deriving Repr

/-- One automatic event applied to (state, songs played so far): an advance
records the song that started playing. -/
def stepAuto (p : RadioState × List Song) : AutoEv → RadioState × List Song
  | .adv c => ((playNextSong c p.1).1, p.2 ++ (playNextSong c p.1).2.toList)
  | .pre c => (preloadNextSongUpdated c p.1, p.2)

/-- Run a sequence of automatic events from a state, collecting the plays. -/
def runAuto (tr : List AutoEv) (s : RadioState) : RadioState × List Song :=
  tr.foldl stepAuto (s, [])

/-- The inductive invariant of the first no-repeat cycle, while fewer plays
than catalog tracks have happened: the played list is exactly the ids played
this session, the available list holds exactly the unplayed catalog tracks,
and the plays are pairwise distinct. -/
structure Phase1 (catalog : List Song) (s : RadioState) (picks : List Song) :
    Prop where
  songs_eq : s.songs = catalog
  played_eq : s.playedSongs = picks.map Song.id
  avail_iff : ∀ x : Song,
    x ∈ s.availableSongs ↔ (x ∈ catalog ∧ x.id ∉ picks.map Song.id)
  len_lt : picks.length < catalog.length
  nodup : (picks.map Song.id).Nodup

/-- The full first-cycle invariant: either still inside the first cycle, or
at least `catalog.length` plays have happened and the first
`catalog.length` of them were pairwise distinct. -/
def FirstCycleInv (catalog : List Song) (s : RadioState)
    (picks : List Song) : Prop :=
  Phase1 catalog s picks ∨
    (catalog.length ≤ picks.length ∧
      ((picks.map Song.id).take catalog.length).Nodup)

/-! ## Catalog client (`src/utils/audioManager.ts`) -/

/-- A JSON value inside a manifest song-title array: a string, or anything
else (filtered out by the `typeof title === 'string'` check). -/
inductive JVal where
  | str (s : String)
  | other
deriving DecidableEq, Repr

/-- A value of the manifest's `languages` mapping: an array of entries, or a
non-array value (skipped by the `Array.isArray` check). -/
inductive MVal where
  | arr (entries : List JVal)
  | notArr
deriving DecidableEq, Repr

/-- A parsed manifest (`MusicManifest` in audioManager.ts): the `languages`
mapping with its keys in object order. -/
structure MusicManifest where
  languages : List (String × MVal)
deriving DecidableEq, Repr

/-- JS property lookup `manifest.languages[language]`. -/
def manifestLookup (m : MusicManifest) (language : String) : Option MVal :=
  (m.languages.find? (fun p => p.1 == language)).map (fun p => p.2)

/-- The manifest-shape validation of `fetchMusicManifest` (audioManager.ts
lines 92–102): the `languages` mapping (existence and object-ness are the
type of `MusicManifest`) must be non-empty. -/
def validateManifest (m : MusicManifest) : Except String MusicManifest :=
  if m.languages.isEmpty then
    .error "No music languages are currently available. Please try again later."
  else .ok m

/-- Function `fetchMusicManifest` (audioManager.ts lines 54–106) given the outcome of
the network stage: configuration, reachability, HTTP and JSON-parse failures
arrive as `.error` carrying their user-facing messages. -/
def fetchMusicManifest (net : Except String MusicManifest) :
    Except String MusicManifest :=
  match net with
  | .error e => .error e
  | .ok m => validateManifest m

/-- Whitespace as stripped by JS `String.prototype.trim`. -/
def isJsWhitespace (c : Char) : Bool :=
  c == ' ' || c == '\t' || c == '\n' || c == '\r' || c == '\x0b' || c == '\x0c'

/-- JS `title.trim()`: strip leading and trailing whitespace. -/
def jsTrim (s : String) : String :=
  ⟨((s.data.dropWhile isJsWhitespace).reverse.dropWhile
      isJsWhitespace).reverse⟩

/-- The song-title filter of audioManager.ts line 150:
`typeof title === 'string' && title.trim().length > 0`. -/
def validTitle : JVal → Option String
  | .str s => if 0 < (jsTrim s).length then some s else none
  | .other => none

/-- One `Song` built for a valid title (audioManager.ts lines 151–156);
`enc` stands for the `encodeURIComponent` builtin. -/
def songFor (enc : String → String) (baseUrl language title : String) : Song :=
  { id := language ++ "-" ++ title, title := title, language := language,
    path := baseUrl ++ "/audio/" ++ enc language ++ "/" ++ enc title
              ++ ".mp3" }

/-- The songs contributed by one requested language (audioManager.ts lines
141–159): a language absent from the manifest or mapped to a non-array value
contributes nothing (the warn-and-`continue` path). -/
def songsForLanguage (enc : String → String) (baseUrl : String)
    (m : MusicManifest) (language : String) : List Song :=
  match manifestLookup m language with
  | some (.arr entries) =>
      (entries.filterMap validTitle).map (songFor enc baseUrl language)
  | _ => []

/-- The `allSongs` accumulation loop of `getSongsByLanguages`. -/
def allSongsFor (enc : String → String) (baseUrl : String)
    (m : MusicManifest) (languages : List String) : List Song :=
  languages.foldl
    (fun acc language => acc ++ songsForLanguage enc baseUrl m language) []

/-- The empty-union error message of audioManager.ts line 163. -/
def noSongsMsg : String :=
  "No songs available for the selected languages. Please try different languages."

/-- Function `getSongsByLanguages` (audioManager.ts lines 130–179): an empty request
short-circuits to `[]` before any network stage; otherwise the union over
the requested languages is built and an empty union is the error. -/
def getSongsByLanguages (enc : String → String)
    (net : Except String MusicManifest) (baseUrl : String)
    (languages : List String) : Except String (List Song) :=
  if languages.isEmpty then .ok []
  else
    match fetchMusicManifest net with
    | .error e => .error e
    | .ok m =>
        let allSongs := allSongsFor enc baseUrl m languages
        if allSongs.isEmpty then .error noSongsMsg else .ok allSongs

/-- Function `getAvailableLanguages` (audioManager.ts lines 109–127): one option per
manifest key, `id` and `name` both the key. -/
def getAvailableLanguages (net : Except String MusicManifest) :
    Except String (List LanguageOption) :=
  match fetchMusicManifest net with
  | .error e => .error e
  | .ok m => .ok (m.languages.map (fun p => { id := p.1, name := p.1 }))

/-! ## HTTP proxy endpoints (`src/app/api/.../route.ts`) -/

/-- JS `String.prototype.includes` on character lists. -/
def charsInclude (pat : List Char) : List Char → Bool
  | [] => pat.isEmpty
  | c :: rest => pat.isPrefixOf (c :: rest) || charsInclude pat rest

/-- JS `message.includes(pattern)`. -/
def strIncludes (s pat : String) : Bool :=
  charsInclude pat.data s.data

/-- A JSON response body produced by the two endpoints: a success envelope
(`{success: true, ...}`) or the error envelope (`{success: false, error}`). -/
inductive RouteBody where
  | songsOk (songs : List Song)
  | languagesOk (options : List LanguageOption)
  | err (message : String)
deriving DecidableEq, Repr

/-- Whether a body is the `{success: false, error}` envelope. -/
def RouteBody.isErr : RouteBody → Bool
  | .err _ => true
  | _ => false

/-- An HTTP response of the two endpoints. -/
structure RouteResponse where
  status : Nat
  body : RouteBody
deriving DecidableEq, Repr

/-- The catch-block mapping of `POST /api/songs`
(src/app/api/songs/route.ts lines 30–61). -/
def songsErrorResponse (msg : String) : RouteResponse :=
  if strIncludes msg "Music server URL is not configured" then
    ⟨503, .err "Music server URL is not configured. Please check environment variables."⟩
  else if strIncludes msg "Cannot connect to music server" then
    ⟨503, .err "Cannot connect to music server. Please check if the server is accessible."⟩
  else if strIncludes msg "Music server error" then
    ⟨502, .err "Music server returned an error. Please try again later."⟩
  else if strIncludes msg "No songs available" then
    ⟨404, .err "No songs available for the selected languages."⟩
  else ⟨500, .err msg⟩

/-- The catch-block mapping of `GET /api/languages`
(src/app/api/languages/route.ts lines 11–36). -/
def languagesErrorResponse (msg : String) : RouteResponse :=
  if strIncludes msg "Music server URL is not configured" then
    ⟨503, .err "Music server URL is not configured. Please check environment variables."⟩
  else if strIncludes msg "Cannot connect to music server" then
    ⟨503, .err "Cannot connect to music server. Please check if the server is accessible."⟩
  else if strIncludes msg "Music server error" then
    ⟨502, .err "Music server returned an error. Please try again later."⟩
  else ⟨500, .err msg⟩

/-- The `languages` field of a parsed `POST /api/songs` body: an array, or a
truthy non-array value (`none` models an absent or falsy field; both fail
the `!languages || !Array.isArray(languages)` check). -/
inductive LanguagesField where
  | arr (languages : List String)
  | notArr
deriving DecidableEq, Repr

/-- A `POST /api/songs` request: either `request.json()` threw (carrying the
thrown message) or it parsed to a body with an optional `languages` field. -/
inductive SongsRequest where
  | parseFail (message : String)
  | parsed (languages : Option LanguagesField)
deriving DecidableEq, Repr

/-- Handler `POST` of src/app/api/songs/route.ts. -/
def songsPOST (enc : String → String) (net : Except String MusicManifest)
    (baseUrl : String) (req : SongsRequest) : RouteResponse :=
  match req with
  | .parseFail msg => songsErrorResponse msg
  | .parsed none => ⟨400, .err "Languages parameter must be an array"⟩
  | .parsed (some .notArr) => ⟨400, .err "Languages parameter must be an array"⟩
  | .parsed (some (.arr languages)) =>
      if languages.isEmpty then ⟨200, .songsOk []⟩
      else
        match getSongsByLanguages enc net baseUrl languages with
        | .ok songs => ⟨200, .songsOk songs⟩
        | .error msg => songsErrorResponse msg

/-- Handler `GET` of src/app/api/languages/route.ts. -/
def languagesGET (net : Except String MusicManifest) : RouteResponse :=
  match getAvailableLanguages net with
  | .ok options => ⟨200, .languagesOk options⟩
  | .error msg => languagesErrorResponse msg

/-- A concrete one-language manifest for witnesses. -/
def manifestW : MusicManifest :=
  { languages := [("English", .arr [.str "a", .str "b"])] }

end Audalithic

namespace Audalithic

/-! ## First theorems: persistence claims -/

/-- Claim C5 — Restoration clamp: when restoring a persisted session whose
saved playback position exceeds the restored track's actual (positive)
duration, the position actually seeked equals the duration, never the raw
saved value. -/
theorem restoredSeekPosition_clamps (position duration : ℚ)
    (hd : 0 < duration) (hp : duration < position) :
    restoredSeekPosition (some position) duration = some duration := by
  simp only [restoredSeekPosition, if_pos (lt_trans hd hp), if_pos hd,
    min_eq_right (le_of_lt hp)]

/-- Witness for C5 at `position = 120`, `duration = 30`. -/
theorem restoredSeekPosition_clamps_witness :
    restoredSeekPosition (some 120) 30 = some 30 :=
  restoredSeekPosition_clamps 120 30 (by norm_num) (by norm_num)

/-- Claim C6 — Staleness expiry: a saved snapshot whose position-save timestamp
is more than 24 hours in the past is not restored; the four saved keys are
cleared and startup yields the idle outcome. -/
theorem loadSavedSongState_expires (st : Storage) (now ts : Int) (song : Song)
    (hsong : st.currentSongKey = some song)
    (hts : st.audioPositionTimestamp = some ts)
    (hold : dayInMs < now - ts) :
    loadSavedSongState st now = (.idle, clearSavedKeys st) ∧
      (clearSavedKeys st).currentSongKey = none ∧
      (clearSavedKeys st).wasPlayingKey = none ∧
      (clearSavedKeys st).audioPosition = none ∧
      (clearSavedKeys st).audioPositionTimestamp = none := by
  refine ⟨?_, rfl, rfl, rfl, rfl⟩
  unfold loadSavedSongState
  simp only [hsong, hts]
  rw [if_neg (not_lt.mpr (le_of_lt hold))]

/-- Witness for C6: a snapshot saved 25 hours ago (at epoch 0, now 25h) is
discarded. -/
theorem loadSavedSongState_expires_witness :
    loadSavedSongState
        { currentSongKey := some default, wasPlayingKey := some true,
          audioPosition := some 10, audioPositionTimestamp := some 0 }
        (25 * 60 * 60 * 1000) =
      (.idle, clearSavedKeys
        { currentSongKey := some default, wasPlayingKey := some true,
          audioPosition := some 10, audioPositionTimestamp := some 0 }) :=
  (loadSavedSongState_expires _ _ 0 default rfl rfl
    (by unfold dayInMs; norm_num)).1

/-- Claim C9 — Missing-timestamp restoration: with a saved song but no
position-save timestamp the snapshot is treated as fresh and restoration
proceeds with storage untouched; when a timestamp exists the 24h test is
applied; and `savePlaybackPosition` writes the timestamp exactly when the
current position is greater than 0 (otherwise storage is untouched). -/
theorem loadSavedSongState_missing_timestamp (st : Storage) (now : Int)
    (song : Song) (hsong : st.currentSongKey = some song)
    (hts : st.audioPositionTimestamp = none) :
    loadSavedSongState st now = (.restore song, st) ∧
      (∀ p : ℚ, 0 < p →
        (savePlaybackPosition (some p) now st).audioPositionTimestamp
          = some now) ∧
      (∀ p : ℚ, ¬0 < p → savePlaybackPosition (some p) now st = st) ∧
      savePlaybackPosition none now st = st := by
  refine ⟨?_, ?_, ?_, rfl⟩
  · unfold loadSavedSongState
    simp only [hsong, hts]
  · intro p hp
    simp only [savePlaybackPosition, if_pos hp]
  · intro p hp
    simp only [savePlaybackPosition, if_neg hp]

/-- Witness for C9: saved song, no timestamp, at `now = 5`; position 0 writes
nothing, position 3 writes the timestamp. -/
theorem loadSavedSongState_missing_timestamp_witness :
    loadSavedSongState
        { currentSongKey := some default, wasPlayingKey := some false,
          audioPosition := some 3, audioPositionTimestamp := none } 5 =
      (.restore default,
        { currentSongKey := some default, wasPlayingKey := some false,
          audioPosition := some 3, audioPositionTimestamp := none }) ∧
      (savePlaybackPosition (some 3) 5
        { currentSongKey := some default, wasPlayingKey := some false,
          audioPosition := some 3,
          audioPositionTimestamp := none }).audioPositionTimestamp = some 5 :=
  ⟨(loadSavedSongState_missing_timestamp _ 5 default rfl rfl).1,
   (loadSavedSongState_missing_timestamp _ 5 default rfl rfl).2.1 3
     (by norm_num)⟩

/-! ## Restoration abandonment (C3) -/

/-- Claim C3 — Restoration abandonment: on cold start with a valid saved
snapshot, if the saved track's id is not in the catalog fetched for the
selected languages, `restoreAudio` abandons restoration: the player falls
back to idle (no current song, no handle, not playing), the saved keys are
cleared, nothing is seeked, and no other track is auto-started. -/
theorem restoreAudio_abandons_when_absent (s : RadioState) (st : Storage)
    (d : ℚ) (c : Song) (hc : s.currentSong = some c)
    (habsent : ∀ t ∈ s.songs, t.id ≠ c.id) :
    restoreAudio s st d =
      ({ s with currentSong := none, sound := none, isPlaying := false },
       clearSavedKeys st, none) := by
  have hany : s.songs.any (fun t => t.id == c.id) = false := by
    rw [List.any_eq_false]
    intro t ht
    simpa using habsent t ht
  unfold restoreAudio
  simp only [hc, hany, Bool.false_eq_true, if_false]

/-- Witness for C3: the saved song `songA` is absent from a catalog holding
only `songB`; restoration is abandoned. -/
theorem restoreAudio_abandons_when_absent_witness :
    restoreAudio
        { initState [songB] with currentSong := some songA }
        { currentSongKey := some songA, wasPlayingKey := some true,
          audioPosition := some 7, audioPositionTimestamp := some 0 } 100 =
      ({ initState [songB] with currentSong := none, sound := none,
                                isPlaying := false },
       clearSavedKeys
         { currentSongKey := some songA, wasPlayingKey := some true,
           audioPosition := some 7, audioPositionTimestamp := some 0 },
       none) :=
  restoreAudio_abandons_when_absent _ _ 100 songA rfl (by decide)

/-! ## History stack (C2) -/

/-- With a non-empty history, `previousSong` pops the newest entry and shows
no notice. -/
theorem previousSongStep_of_ne_nil (s : RadioState)
    (h : ¬s.previousSongs.isEmpty) :
    (previousSongStep s).1.previousSongs = s.previousSongs.dropLast ∧
      (previousSongStep s).2 = false := by
  unfold previousSongStep
  rw [if_neg (by simpa using h)]
  exact ⟨rfl, rfl⟩

/-- With an empty history, `previousSong` only shows the
"No previous songs available" notice and leaves the state unchanged. -/
theorem previousSongStep_of_empty (s : RadioState)
    (h : s.previousSongs.isEmpty) : previousSongStep s = (s, true) := by
  unfold previousSongStep
  rw [if_pos (by simpa using h)]

/-- Iterated `previousSong` shortens the history by one per call. -/
theorem prevIter_history_length (k : Nat) (s : RadioState) :
    (prevIter k s).previousSongs.length = s.previousSongs.length - k := by
  induction k generalizing s with
  | zero => simp [prevIter]
  | succ k ih =>
      rw [prevIter, ih]
      by_cases h : s.previousSongs.isEmpty
      · rw [previousSongStep_of_empty s h]
        have h0 : s.previousSongs.length = 0 := by simpa using h
        show s.previousSongs.length - k = s.previousSongs.length - (k + 1)
        omega
      · rw [(previousSongStep_of_ne_nil s h).1, List.length_dropLast]
        have : s.previousSongs.length ≠ 0 := by
          simpa [List.isEmpty_iff_length_eq_zero] using h
        omega

/-- Claim C2, amended — From any state, each of the first `historyLength`
`previousSong` calls pops an entry without a notice, and the following call
reports the "no previous" notice and leaves the state unchanged (it neither
errors nor advances).  (The cap of 10 does not exist in the code; the history
grows without bound, see the counterexample.) -/
theorem previousSong_exhausts_with_notice (s : RadioState) :
    (∀ k, k < s.previousSongs.length →
        (previousSongStep (prevIter k s)).2 = false) ∧
      previousSongStep (prevIter s.previousSongs.length s) =
        (prevIter s.previousSongs.length s, true) := by
  constructor
  · intro k hk
    have h : ¬(prevIter k s).previousSongs.isEmpty := by
      rw [List.isEmpty_iff_length_eq_zero, prevIter_history_length]
      omega
    exact (previousSongStep_of_ne_nil _ h).2
  · have h : (prevIter s.previousSongs.length s).previousSongs.isEmpty := by
      rw [List.isEmpty_iff_length_eq_zero, prevIter_history_length]
      omega
    exact previousSongStep_of_empty _ h

/-- Witness for C2 (amended), on a state whose history holds one song: the
first call pops without a notice, the second call reports the notice. -/
theorem previousSong_exhausts_with_notice_witness :
    (previousSongStep
        (prevIter 0 { initState catalogAB with previousSongs := [songA] })).2
        = false ∧
      previousSongStep
          (prevIter
            ({ initState catalogAB with
                previousSongs := [songA] } : RadioState).previousSongs.length
            { initState catalogAB with previousSongs := [songA] }) =
        (prevIter
            ({ initState catalogAB with
                previousSongs := [songA] } : RadioState).previousSongs.length
            { initState catalogAB with previousSongs := [songA] }, true) :=
  ⟨(previousSong_exhausts_with_notice
      { initState catalogAB with previousSongs := [songA] }).1 0
      (by decide),
   (previousSong_exhausts_with_notice
      { initState catalogAB with previousSongs := [songA] }).2⟩

/-- Claim C2 counterexample — the history stack is not capped at 10: after 12
automatic advances over a two-track catalog the reachable state's history
holds 11 entries. -/
theorem historyStack_cap_counterexample :
    10 < (runEvents (List.replicate 12 (Ev.advance 0))
            (initState catalogAB)).previousSongs.length := by
  decide

/-! ## Session-set disjointness (C4) -/

/-- The pair written by every exhaustion/explicit reset — `playedSongs`
becomes the current id (or nothing) and `availableSongs` becomes the catalog
minus the current song — is disjoint. -/
theorem disjoint_reset_pair (s : RadioState) :
    ∀ x ∈ s.songs.filter (fun t => !isCurrentB s t), x.id ∉ currentIdList s := by
  intro x hx
  rw [List.mem_filter] at hx
  obtain ⟨-, hx2⟩ := hx
  unfold isCurrentB at hx2
  unfold currentIdList
  cases h : s.currentSong with
  | none => simp
  | some c =>
      rw [h] at hx2
      simp only [Bool.not_eq_eq_eq_not, Bool.not_true, beq_eq_false_iff_ne,
        ne_eq] at hx2
      simp [hx2]

/-- The queued played/available pair inside `playNextSong` is disjoint
whenever the invocation snapshot was. -/
theorem disjoint_queued (s : RadioState) (h : sessionDisjoint s) :
    ∀ x ∈ queuedAvail s, x.id ∉ queuedPlayed s := by
  unfold queuedAvail queuedPlayed
  split
  · exact disjoint_reset_pair s
  · exact h

/-- Helper `beginSong` keeps available/played disjoint when given a disjoint queued
pair. -/
theorem sessionDisjoint_beginSong (s : RadioState) (qP : List String)
    (qA : List Song) (t : Song) (nx : Option Song)
    (h : ∀ x ∈ qA, x.id ∉ qP) :
    sessionDisjoint (beginSong s qP qA t nx) := by
  intro x hx hmem
  simp only [beginSong] at hx hmem
  rw [List.mem_filter] at hx
  obtain ⟨hxA, hxne⟩ := hx
  rw [List.mem_append] at hmem
  rcases hmem with hmem | hmem
  · exact h x hxA hmem
  · simp only [List.mem_singleton] at hmem
    rw [hmem] at hxne
    simp at hxne

/-- Function `playNextSong` preserves disjointness of available/played. -/
theorem sessionDisjoint_playNextSong (c : Nat) (s : RadioState)
    (h : sessionDisjoint s) : sessionDisjoint (playNextSong c s).1 := by
  unfold playNextSong
  split
  · exact h
  · dsimp only
    split
    · exact sessionDisjoint_beginSong _ _ _ _ _ (disjoint_queued s h)
    · split
      · split
        · intro x hx hmem
          exact disjoint_queued s h x hx hmem
        · exact sessionDisjoint_beginSong _ _ _ _ _ (disjoint_queued s h)
      · split
        · intro x hx hmem
          exact disjoint_queued s h x hx hmem
        · exact sessionDisjoint_beginSong _ _ _ _ _ (disjoint_queued s h)

/-- Function `preloadNextSongUpdated` preserves disjointness of available/played. -/
theorem sessionDisjoint_preloadNextSongUpdated (c : Nat) (s : RadioState)
    (h : sessionDisjoint s) :
    sessionDisjoint (preloadNextSongUpdated c s) := by
  unfold preloadNextSongUpdated
  split
  · exact h
  · split
    · exact h
    · dsimp only
      split
      · exact h
      · split
        · exact h
        · split
          · intro x hx hmem
            exact disjoint_reset_pair s x hx hmem
          · intro x hx hmem
            exact disjoint_reset_pair s x hx hmem

/-- Function `previousSong` preserves disjointness of available/played. -/
theorem sessionDisjoint_previousSongStep (s : RadioState)
    (h : sessionDisjoint s) : sessionDisjoint (previousSongStep s).1 := by
  unfold previousSongStep
  split
  · exact h
  · cases hc : s.currentSong with
    | none =>
        simp only [hc]
        exact h
    | some cs =>
        simp only [hc]
        intro x hx hmem
        rw [List.mem_filter] at hmem
        obtain ⟨hm1, hm2⟩ := hmem
        rcases List.mem_cons.1 hx with hx1 | hx1
        · subst hx1
          simp at hm2
        · exact h x hx1 hm1

/-- Function `resetPlaylist` preserves disjointness of available/played. -/
theorem sessionDisjoint_resetPlaylist (s : RadioState)
    (h : sessionDisjoint s) : sessionDisjoint (resetPlaylist s) := by
  unfold resetPlaylist
  split
  · exact h
  · intro x hx hmem
    exact disjoint_reset_pair s x hx hmem

/-- The song-list rebuild establishes disjointness of available/played. -/
theorem sessionDisjoint_rebuildSongs (l : List Song) (s : RadioState) :
    sessionDisjoint (rebuildSongs l s) := by
  unfold rebuildSongs
  split
  · intro x hx hmem
    simp at hx
  · intro x hx hmem
    rw [List.mem_filter] at hx
    obtain ⟨-, hx2⟩ := hx
    simp at hx2
    exact hx2 hmem

/-- Every session-mutating handler preserves disjointness. -/
theorem sessionDisjoint_applyEv (s : RadioState) (e : Ev)
    (h : sessionDisjoint s) : sessionDisjoint (applyEv s e) := by
  cases e with
  | advance c => exact sessionDisjoint_playNextSong c s h
  | preload c => exact sessionDisjoint_preloadNextSongUpdated c s h
  | previous => exact sessionDisjoint_previousSongStep s h
  | reset => exact sessionDisjoint_resetPlaylist s h
  | rebuild l => exact sessionDisjoint_rebuildSongs l s

/-- Disjointness is preserved along any run of handler invocations. -/
theorem runEvents_sessionDisjoint (tr : List Ev) (s : RadioState)
    (h : sessionDisjoint s) : sessionDisjoint (runEvents tr s) := by
  induction tr generalizing s with
  | nil => exact h
  | cons e tr ih => exact ih _ (sessionDisjoint_applyEv s e h)

/-- Claim C4, amended — after every sequence of session-mutating operations
(advances, preloads, previous, explicit reset, song-list rebuilds) starting
from a fresh catalog, the available set and the played set are disjoint.
(The second half of the original claim — that the history stack never
contains the currently-playing track — fails after an exhaustion-reset; see
the counterexample.) -/
theorem sessionDisjoint_reachable (catalog : List Song) (tr : List Ev) :
    sessionDisjoint (runEvents tr (initState catalog)) := by
  apply runEvents_sessionDisjoint
  intro x hx hmem
  simp [initState] at hmem

/-- Claim C4 counterexample — after three automatic advances over the
two-track catalog, the current track `songA` is also on the history stack:
the exhaustion-reset re-admits history entries into rotation, so the
"history never contains the currently-playing track" conjunct is false. -/
theorem history_contains_current_counterexample :
    (runEvents (List.replicate 3 (Ev.advance 0))
        (initState catalogAB)).currentSong = some songA ∧
      songA ∈ (runEvents (List.replicate 3 (Ev.advance 0))
          (initState catalogAB)).previousSongs := by
  decide

/-! ## Catalog client contracts (C7, C10) -/

/-- The `allSongs` loop commutes with an arbitrary accumulator. -/
theorem allSongsFor_foldl_acc (enc : String → String) (baseUrl : String)
    (m : MusicManifest) :
    ∀ (languages : List String) (acc : List Song),
      languages.foldl
          (fun a language => a ++ songsForLanguage enc baseUrl m language) acc
        = acc ++ allSongsFor enc baseUrl m languages := by
  intro languages
  induction languages with
  | nil => intro acc; simp [allSongsFor]
  | cons x xs ih =>
      intro acc
      rw [List.foldl_cons, ih]
      have h2 : allSongsFor enc baseUrl m (x :: xs)
          = songsForLanguage enc baseUrl m x
              ++ allSongsFor enc baseUrl m xs := by
        unfold allSongsFor
        rw [List.foldl_cons, ih]
        simp [allSongsFor]
      rw [h2, List.append_assoc]

/-- The song union splits over concatenation of the request list. -/
theorem allSongsFor_append (enc : String → String) (baseUrl : String)
    (m : MusicManifest) (l1 l2 : List String) :
    allSongsFor enc baseUrl m (l1 ++ l2)
      = allSongsFor enc baseUrl m l1 ++ allSongsFor enc baseUrl m l2 := by
  have h := allSongsFor_foldl_acc enc baseUrl m l2
    (allSongsFor enc baseUrl m l1)
  calc allSongsFor enc baseUrl m (l1 ++ l2)
      = l2.foldl
          (fun a language => a ++ songsForLanguage enc baseUrl m language)
          (allSongsFor enc baseUrl m l1) := by
        unfold allSongsFor
        rw [List.foldl_append]
    _ = _ := h

/-- An absent or malformed requested language contributes no songs. -/
theorem songsForLanguage_invalid (enc : String → String) (baseUrl : String)
    (m : MusicManifest) (language : String)
    (h : ∀ entries, manifestLookup m language ≠ some (.arr entries)) :
    songsForLanguage enc baseUrl m language = [] := by
  unfold songsForLanguage
  cases hm : manifestLookup m language with
  | none => rfl
  | some mv =>
      cases mv with
      | notArr => rfl
      | arr es => exact absurd hm (h es)

/-- Claim C7 — the catalog client's song-fetch contract: (a) an empty language
list yields `[]` whatever the network would do (no fetch is performed);
(b) for a non-empty list, the call fails with the empty-result error exactly
when the union of valid tracks over the requested languages is empty, and
otherwise returns that union; (c) a requested language that is absent from
the manifest or mapped to a malformed (non-array) value is skipped — it
contributes nothing to the union and cannot by itself cause a failure. -/
theorem getSongsByLanguages_contract (enc : String → String)
    (baseUrl : String) :
    (∀ net, getSongsByLanguages enc net baseUrl [] = .ok []) ∧
      (∀ (net : Except String MusicManifest) (m : MusicManifest)
          (languages : List String), fetchMusicManifest net = .ok m →
          languages ≠ [] →
          (getSongsByLanguages enc net baseUrl languages = .error noSongsMsg ↔
              allSongsFor enc baseUrl m languages = []) ∧
            (allSongsFor enc baseUrl m languages ≠ [] →
              getSongsByLanguages enc net baseUrl languages =
                .ok (allSongsFor enc baseUrl m languages))) ∧
      ∀ (m : MusicManifest) (l1 l2 : List String) (language : String),
          (∀ entries, manifestLookup m language ≠ some (.arr entries)) →
          allSongsFor enc baseUrl m (l1 ++ language :: l2) =
            allSongsFor enc baseUrl m (l1 ++ l2) := by
  refine ⟨?_, ?_, ?_⟩
  · intro net
    simp [getSongsByLanguages]
  · intro net m languages hnet hne
    have hiso : languages.isEmpty = false := by
      simpa [List.isEmpty_iff] using hne
    unfold getSongsByLanguages
    rw [hiso, hnet]
    simp only [Bool.false_eq_true, if_false]
    constructor
    · constructor
      · intro heq
        by_cases he : (allSongsFor enc baseUrl m languages).isEmpty
        · simpa [List.isEmpty_iff] using he
        · rw [if_neg he] at heq
          exact absurd heq (by simp)
      · intro hnil
        rw [if_pos (by simp [hnil])]
    · intro hne2
      rw [if_neg (by simpa [List.isEmpty_iff] using hne2)]
  · intro m l1 l2 language h
    have hz := songsForLanguage_invalid enc baseUrl m language h
    rw [allSongsFor_append, allSongsFor_append]
    have hcons : allSongsFor enc baseUrl m (language :: l2)
        = allSongsFor enc baseUrl m l2 := by
      have h2 : allSongsFor enc baseUrl m (language :: l2)
          = songsForLanguage enc baseUrl m language
              ++ allSongsFor enc baseUrl m l2 := by
        unfold allSongsFor
        rw [List.foldl_cons, allSongsFor_foldl_acc]
        simp [allSongsFor]
      rw [h2, hz, List.nil_append]
    rw [hcons]

/-- Witness for C7: empty request short-circuits even when the network is
down; a request naming `English` (present) and `French` (absent) returns the
union and does not fail; `German` (absent) contributes nothing. -/
theorem getSongsByLanguages_contract_witness :
    getSongsByLanguages id (.error "down") "b" [] = .ok [] ∧
      getSongsByLanguages id (.ok manifestW) "b" ["English", "French"] =
        .ok (allSongsFor id "b" manifestW ["English", "French"]) ∧
      allSongsFor id "b" manifestW (["French"] ++ "German" :: []) =
        allSongsFor id "b" manifestW (["French"] ++ []) := by
  refine ⟨(getSongsByLanguages_contract id "b").1 _, ?_, ?_⟩
  · exact ((getSongsByLanguages_contract id "b").2.1 (.ok manifestW)
      manifestW ["English", "French"] rfl (by decide)).2 (by decide)
  · exact (getSongsByLanguages_contract id "b").2.2 manifestW ["French"] []
      "German" (fun es hes => by
        rw [show manifestLookup manifestW "German" = none from rfl] at hes
        exact Option.noConfusion hes)

/-- Claim C10 — for every manifest accepted by the catalog client,
`getAvailableLanguages` returns exactly one `LanguageOption` per key of the
`languages` mapping, in mapping order, with both `id` and `name` equal to
the key. -/
theorem getAvailableLanguages_identity (net : Except String MusicManifest)
    (m : MusicManifest) (h : fetchMusicManifest net = .ok m) :
    ∃ options, getAvailableLanguages net = .ok options ∧
      options.map LanguageOption.id = m.languages.map Prod.fst ∧
      options.map LanguageOption.name = m.languages.map Prod.fst ∧
      options.length = m.languages.length := by
  refine ⟨m.languages.map (fun p => { id := p.1, name := p.1 }), ?_, ?_, ?_,
    ?_⟩
  · unfold getAvailableLanguages
    rw [h]
  · rw [List.map_map]
    rfl
  · rw [List.map_map]
    rfl
  · rw [List.length_map]

/-- Witness for C10 on the concrete one-language manifest. -/
theorem getAvailableLanguages_identity_witness :
    ∃ options, getAvailableLanguages (.ok manifestW) = .ok options ∧
      options.map LanguageOption.id = manifestW.languages.map Prod.fst ∧
      options.map LanguageOption.name = manifestW.languages.map Prod.fst ∧
      options.length = manifestW.languages.length :=
  getAvailableLanguages_identity (.ok manifestW) manifestW rfl

/-! ## HTTP status envelopes (C8) -/

/-- The songs-route catch block always produces one of 404/500/502/503 with
the error envelope. -/
theorem songsErrorResponse_spec (msg : String) :
    ((songsErrorResponse msg).status = 503 ∨
        (songsErrorResponse msg).status = 502 ∨
        (songsErrorResponse msg).status = 404 ∨
        (songsErrorResponse msg).status = 500) ∧
      (songsErrorResponse msg).body.isErr = true := by
  unfold songsErrorResponse
  split
  · exact ⟨by simp, rfl⟩
  · split
    · exact ⟨by simp, rfl⟩
    · split
      · exact ⟨by simp, rfl⟩
      · split
        · exact ⟨by simp, rfl⟩
        · exact ⟨by simp, rfl⟩

/-- The languages-route catch block always produces one of 500/502/503 with
the error envelope. -/
theorem languagesErrorResponse_spec (msg : String) :
    ((languagesErrorResponse msg).status = 503 ∨
        (languagesErrorResponse msg).status = 502 ∨
        (languagesErrorResponse msg).status = 500) ∧
      (languagesErrorResponse msg).body.isErr = true := by
  unfold languagesErrorResponse
  split
  · exact ⟨by simp, rfl⟩
  · split
    · exact ⟨by simp, rfl⟩
    · split
      · exact ⟨by simp, rfl⟩
      · exact ⟨by simp, rfl⟩

/-- Claim C8, amended — every response of `POST /api/songs` carries a status
in {200, 400, 404, 500, 502, 503} and every response of
`GET /api/languages` a status in {200, 500, 502, 503}; in both routes the
body is the `{success: false, error}` envelope exactly when the status is
not 200, and a success envelope otherwise. -/
theorem routes_status_envelope (enc : String → String) (baseUrl : String) :
    (∀ (net : Except String MusicManifest) (req : SongsRequest),
        (songsPOST enc net baseUrl req).status ∈
            ([200, 400, 404, 500, 502, 503] : List Nat) ∧
          ((songsPOST enc net baseUrl req).body.isErr = true ↔
            (songsPOST enc net baseUrl req).status ≠ 200)) ∧
      ∀ net : Except String MusicManifest,
        (languagesGET net).status ∈ ([200, 500, 502, 503] : List Nat) ∧
          ((languagesGET net).body.isErr = true ↔
            (languagesGET net).status ≠ 200) := by
  constructor
  · intro net req
    cases req with
    | parseFail msg =>
        obtain ⟨h1, h2⟩ := songsErrorResponse_spec msg
        refine ⟨?_, ?_, ?_⟩
        · rcases h1 with h | h | h | h <;> simp [songsPOST, h]
        · intro _
          rcases h1 with h | h | h | h <;> simp [songsPOST, h]
        · intro _
          simpa [songsPOST] using h2
    | parsed field =>
        match field with
        | none =>
            exact ⟨by simp [songsPOST],
              by simp [songsPOST, RouteBody.isErr]⟩
        | some .notArr =>
            exact ⟨by simp [songsPOST],
              by simp [songsPOST, RouteBody.isErr]⟩
        | some (.arr languages) =>
            by_cases hl : languages.isEmpty
            · refine ⟨?_, ?_⟩
              · simp [songsPOST, hl]
              · simp [songsPOST, hl, RouteBody.isErr]
            · cases hg : getSongsByLanguages enc net baseUrl languages with
              | ok songs =>
                  refine ⟨?_, ?_⟩
                  · simp [songsPOST, hl, hg]
                  · simp [songsPOST, hl, hg, RouteBody.isErr]
              | error msg =>
                  obtain ⟨h1, h2⟩ := songsErrorResponse_spec msg
                  refine ⟨?_, ?_, ?_⟩
                  · rcases h1 with h | h | h | h <;>
                      simp [songsPOST, hl, hg, h]
                  · intro _
                    rcases h1 with h | h | h | h <;>
                      simp [songsPOST, hl, hg, h]
                  · intro _
                    simpa [songsPOST, hl, hg] using h2
  · intro net
    cases hg : getAvailableLanguages net with
    | ok options =>
        refine ⟨?_, ?_⟩
        · simp [languagesGET, hg]
        · simp [languagesGET, hg, RouteBody.isErr]
    | error msg =>
        obtain ⟨h1, h2⟩ := languagesErrorResponse_spec msg
        refine ⟨?_, ?_, ?_⟩
        · rcases h1 with h | h | h <;> simp [languagesGET, hg, h]
        · intro _
          rcases h1 with h | h | h <;> simp [languagesGET, hg, h]
        · intro _
          simpa [languagesGET, hg] using h2

/-- Claim C8 counterexample — the claimed status set {200, 404, 502, 503} is
incomplete: a non-array `languages` field yields 400, and a catalog
format-error message matching no known pattern yields 500. -/
theorem routes_status_counterexample :
    (songsPOST id (.ok manifestW) "b" (.parsed (some .notArr))).status
        = 400 ∧
      (languagesGET (.error
          "Music server returned invalid data. Please contact support.")).status
        = 500 ∧
      400 ∉ ([200, 404, 502, 503] : List Nat) ∧
      500 ∉ ([200, 404, 502, 503] : List Nat) := by
  refine ⟨rfl, rfl, by decide, by decide⟩

/-! ## First-cycle no-repeat (C1) -/

/-- Pigeonhole: with distinct catalog ids and fewer distinct plays than
catalog tracks, some catalog track is still unplayed. -/
theorem exists_unplayed (catalog picks : List Song)
    (hcat : (catalog.map Song.id).Nodup)
    (hlen : picks.length < catalog.length) :
    ∃ x, x ∈ catalog ∧ x.id ∉ picks.map Song.id := by
  by_contra hall
  push_neg at hall
  have hsub : (catalog.map Song.id) ⊆ picks.map Song.id := by
    intro a ha
    rw [List.mem_map] at ha
    obtain ⟨x, hx, rfl⟩ := ha
    exact hall x hx
  have hle : (catalog.map Song.id).length ≤ (picks.map Song.id).length := by
    classical
    calc (catalog.map Song.id).length
        = (catalog.map Song.id).toFinset.card :=
          (List.toFinset_card_of_nodup hcat).symm
      _ ≤ (picks.map Song.id).toFinset.card :=
          Finset.card_le_card (fun a ha => by
            rw [List.mem_toFinset] at ha ⊢
            exact hsub ha)
      _ ≤ (picks.map Song.id).length := (picks.map Song.id).toFinset_card_le
  rw [List.length_map, List.length_map] at hle
  omega

/-- A `getD` pick at a modular index is a member. -/
theorem getD_mod_mem (l : List Song) (n : Nat) (h : ¬l.isEmpty = true) :
    l.getD (n % l.length) default ∈ l := by
  have hlen : 0 < l.length := by
    cases l with
    | nil => simp at h
    | cons a as => simp
  have hidx : n % l.length < l.length := Nat.mod_lt _ hlen
  rw [List.getD_eq_getElem l default hidx]
  exact List.getElem_mem hidx

/-- When the exhaustion check does not fire, the queued played list is the
snapshot. -/
theorem queuedPlayed_of_not_fires (s : RadioState)
    (h : ¬exhaustionFires s) : queuedPlayed s = s.playedSongs := by
  unfold queuedPlayed
  rw [if_neg h]

/-- When the exhaustion check does not fire, the queued available list is
the snapshot. -/
theorem queuedAvail_of_not_fires (s : RadioState)
    (h : ¬exhaustionFires s) : queuedAvail s = s.availableSongs := by
  unfold queuedAvail
  rw [if_neg h]

/-- In a state with songs and a non-empty snapshot `availableSongs`,
`playNextSong` always starts a track taken from that snapshot. -/
theorem playNextSong_shape (c : Nat) (s : RadioState)
    (hne : ¬s.songs.isEmpty = true)
    (hav : ¬s.availableSongs.isEmpty = true) :
    ∃ t nx, t ∈ s.availableSongs ∧
      playNextSong c s
        = (beginSong s (queuedPlayed s) (queuedAvail s) t nx, some t) := by
  have h0 : 0 < s.availableSongs.length := by
    cases hl : s.availableSongs with
    | nil => rw [hl] at hav; simp at hav
    | cons a as => simp [hl]
  cases hp : preloadLookup s with
  | some t =>
      refine ⟨t, none, ?_, ?_⟩
      · unfold preloadLookup at hp
        cases hn : s.nextSound with
        | none => rw [hn] at hp; exact absurd hp (by simp)
        | some ns =>
            rw [hn] at hp
            have hp' : s.availableSongs.find? (fun t => t.path == ns.path)
                = some t := hp
            exact List.mem_of_find?_eq_some hp'
      · unfold playNextSong
        rw [if_neg hne]
        dsimp only
        rw [hp]
  | none =>
      refine ⟨s.availableSongs.getD (c % s.availableSongs.length) default,
        s.nextSound, getD_mod_mem _ _ hav, ?_⟩
      unfold playNextSong
      rw [if_neg hne]
      dsimp only
      rw [hp, if_pos h0, if_neg hav]

/-- One advance inside the first cycle plays a fresh track and keeps the
invariant (possibly completing the cycle). -/
theorem firstCycleInv_adv (catalog : List Song) (c : Nat) (s : RadioState)
    (picks : List Song) (hcat : (catalog.map Song.id).Nodup)
    (h : FirstCycleInv catalog s picks) :
    FirstCycleInv catalog (playNextSong c s).1
      (picks ++ (playNextSong c s).2.toList) := by
  rcases h with h | ⟨hlen, hnd⟩
  · have hpos : 0 < catalog.length := Nat.lt_of_le_of_lt (Nat.zero_le _)
      h.len_lt
    have hne : ¬s.songs.isEmpty = true := by
      rw [h.songs_eq]
      cases catalog with
      | nil => simp at hpos
      | cons a as => simp
    obtain ⟨w, hwcat, hwid⟩ :=
      exists_unplayed catalog picks hcat h.len_lt
    have hwav : w ∈ s.availableSongs := (h.avail_iff w).2 ⟨hwcat, hwid⟩
    have hav : ¬s.availableSongs.isEmpty = true := by
      cases hl : s.availableSongs with
      | nil => rw [hl] at hwav; exact absurd hwav (by simp)
      | cons a as => simp
    obtain ⟨t, nx, htmem, heq⟩ := playNextSong_shape c s hne hav
    obtain ⟨htcat, htid⟩ := (h.avail_iff t).1 htmem
    rw [heq]
    simp only [Option.toList_some]
    have hnodup' : ((picks ++ [t]).map Song.id).Nodup := by
      rw [List.map_append]
      refine h.nodup.append (by simp) ?_
      intro a ha hb
      simp only [List.map_cons, List.map_nil, List.mem_singleton] at hb
      subst hb
      exact htid ha
    by_cases hN : picks.length + 1 < catalog.length
    · left
      have hreset : ¬exhaustionFires s := by
        unfold exhaustionFires
        rw [h.songs_eq, h.played_eq, List.length_map]
        omega
      refine ⟨h.songs_eq, ?_, ?_, by simpa using hN, hnodup'⟩
      · show queuedPlayed s ++ [t.id] = (picks ++ [t]).map Song.id
        rw [queuedPlayed_of_not_fires s hreset, h.played_eq,
          List.map_append]
        rfl
      · intro x
        show x ∈ (queuedAvail s).filter (fun y => !(y.id == t.id)) ↔ _
        rw [queuedAvail_of_not_fires s hreset, List.mem_filter]
        constructor
        · rintro ⟨hx1, hx2⟩
          obtain ⟨hxc, hxp⟩ := (h.avail_iff x).1 hx1
          refine ⟨hxc, ?_⟩
          rw [List.map_append, List.mem_append]
          rintro (hx | hx)
          · exact hxp hx
          · simp only [List.map_cons, List.map_nil,
              List.mem_singleton] at hx
            simp [hx] at hx2
        · rintro ⟨hxc, hxp⟩
          rw [List.map_append, List.mem_append] at hxp
          push_neg at hxp
          obtain ⟨hxp1, hxp2⟩ := hxp
          refine ⟨(h.avail_iff x).2 ⟨hxc, hxp1⟩, ?_⟩
          simp only [List.map_cons, List.map_nil, List.mem_singleton] at hxp2
          simp [hxp2]
    · right
      constructor
      · have := h.len_lt
        simp only [List.length_append, List.length_singleton]
        omega
      · rw [List.take_of_length_le (by
          have := h.len_lt
          rw [List.length_map, List.length_append, List.length_singleton]
          omega)]
        exact hnodup'
  · right
    cases hr : (playNextSong c s).2 with
    | none =>
        constructor
        · simpa using hlen
        · simpa using hnd
    | some t =>
        constructor
        · simp only [Option.toList_some, List.length_append]
          omega
        · rw [List.map_append, List.take_append_of_le_length
            (by rw [List.length_map]; exact hlen)]
          exact hnd

/-- A preload attempt inside the first cycle never mutates the session sets
(its own reset branch is unreachable while unplayed tracks remain). -/
theorem firstCycleInv_pre (catalog : List Song) (c : Nat) (s : RadioState)
    (picks : List Song) (hcat : (catalog.map Song.id).Nodup)
    (h : FirstCycleInv catalog s picks) :
    FirstCycleInv catalog (preloadNextSongUpdated c s) picks := by
  rcases h with h | h2
  · left
    obtain ⟨w, hwcat, hwid⟩ :=
      exists_unplayed catalog picks hcat h.len_lt
    have hwav : w ∈ s.availableSongs := (h.avail_iff w).2 ⟨hwcat, hwid⟩
    have h0 : 0 < s.availableSongs.length := by
      cases hl : s.availableSongs with
      | nil => rw [hl] at hwav; exact absurd hwav (by simp)
      | cons a as => simp
    unfold preloadNextSongUpdated
    split
    · exact h
    · split
      · exact h
      · dsimp only
        -- `split` resolves the inner available-length test with `h0`, so the
        -- reset branch is discharged as unreachable here
        split
        · exact ⟨h.songs_eq, h.played_eq, h.avail_iff, h.len_lt, h.nodup⟩
        · exact ⟨h.songs_eq, h.played_eq, h.avail_iff, h.len_lt, h.nodup⟩
  · right
    exact h2

/-- The first-cycle invariant holds along any automatic run. -/
theorem foldAuto_inv (catalog : List Song)
    (hcat : (catalog.map Song.id).Nodup) :
    ∀ (tr : List AutoEv) (s : RadioState) (picks : List Song),
      FirstCycleInv catalog s picks →
      FirstCycleInv catalog (tr.foldl stepAuto (s, picks)).1
        (tr.foldl stepAuto (s, picks)).2 := by
  intro tr
  induction tr with
  | nil => intro s picks h; exact h
  | cons e tr ih =>
      intro s picks h
      rw [List.foldl_cons]
      cases e with
      | adv c => exact ih _ _ (firstCycleInv_adv catalog c s picks hcat h)
      | pre c => exact ih _ _ (firstCycleInv_pre catalog c s picks hcat h)

/-- Claim C1, amended — for a fixed catalog of `N` tracks with distinct ids
and any sequence of automatic advances and preload attempts from a fresh
session, no track id appears twice among the first `N` plays.  (The
exhaustion-reset, however, fires during the advance that starts the `N`-th
play — once `N−1` tracks are marked played — not only after every track has
been played; see the counterexample.) -/
theorem first_cycle_no_repeat (catalog : List Song)
    (hcat : (catalog.map Song.id).Nodup) (tr : List AutoEv) :
    (((runAuto tr (initState catalog)).2.map Song.id).take
        catalog.length).Nodup := by
  have h0 : FirstCycleInv catalog (initState catalog) [] := by
    cases Nat.eq_zero_or_pos catalog.length with
    | inl hz => exact Or.inr ⟨by omega, by simp⟩
    | inr hp =>
        refine Or.inl ⟨rfl, rfl, ?_, by simpa using hp, by simp⟩
        intro x
        simp [initState]
  have h := foldAuto_inv catalog hcat tr (initState catalog) [] h0
  unfold runAuto
  rcases h with h | ⟨-, h2⟩
  · rw [List.take_of_length_le
      (by rw [List.length_map]; exact Nat.le_of_lt h.len_lt)]
    exact h.nodup
  · exact h2

/-- Witness for C1 (amended) on the two-track catalog and a concrete
advance/preload trace. -/
theorem first_cycle_no_repeat_witness :
    (catalogAB.map Song.id).Nodup ∧
      (((runAuto [AutoEv.adv 0, AutoEv.pre 0, AutoEv.adv 1]
            (initState catalogAB)).2.map Song.id).take
          catalogAB.length).Nodup :=
  ⟨by decide, first_cycle_no_repeat catalogAB (by decide) _⟩

/-- Claim C1 counterexample — the exhaustion-reset does not wait for every
track: with the two-track catalog, after a single play (only `songA`), the
reset condition `playedSongs.length >= songs.length - 1` already holds even
though `songB` has never been played; and after the third advance the played
list has been reset down to `[songB, songA]` instead of accumulating. -/
theorem exhaustion_reset_early_counterexample :
    exhaustionFires (runAuto [AutoEv.adv 0] (initState catalogAB)).1 ∧
      songB.id ∉
        (runAuto [AutoEv.adv 0] (initState catalogAB)).1.playedSongs ∧
      (runAuto (List.replicate 3 (AutoEv.adv 0))
          (initState catalogAB)).1.playedSongs = [songB.id, songA.id] := by
  refine ⟨by decide, by decide, by decide⟩

end Audalithic
